import Mathlib

/-!
Verification of the request authentication & audit pipeline of the go-app
repository: the canonical request-signing scheme (`utils/signature.go`,
`middleware/signature.go`), the session-token issuer/verifier
(`middleware/jwt.go`, given here as an unnamed source part), the dual-severity
structured logger (`utils/logger.go`) and the asynchronous audit recorder
(`utils/request_logger.go`).

The Go code is shallowly embedded: Go `map[string]string` parameter sets become
association lists `List (String × String)`; `int64` values become `Int`;
machine words inside the digest become `Nat` with explicit `% 2^32`; fallible
or effectful steps become explicit result values reified as data.
-/

set_option maxRecDepth 100000
set_option linter.unusedVariables false

/-! ### MD5 (crypto/md5, used by both signing paths)

The digest is modelled bit-exactly over `Nat`, with every 32-bit operation
reduced modulo 4294967296 = 2^32.
-/

/-- All-ones 32-bit word, used to express bitwise NOT as XOR. -/
def mask32 : Nat := 4294967295

/-- 32-bit wrapping addition. -/
def add32 (a b : Nat) : Nat := (a + b) % 4294967296

/-- 32-bit left rotation (for `s < 32` and `x < 2^32`). -/
def rotl32 (x s : Nat) : Nat := ((x <<< s) ||| (x >>> (32 - s))) % 4294967296

def md5F (b c d : Nat) : Nat := (b &&& c) ||| ((b ^^^ mask32) &&& d)

def md5G (b c d : Nat) : Nat := (d &&& b) ||| ((d ^^^ mask32) &&& c)

def md5H (b c d : Nat) : Nat := b ^^^ c ^^^ d

def md5I (b c d : Nat) : Nat := c ^^^ (b ||| (d ^^^ mask32))

/-- The 64 MD5 round constants. -/
def md5K : List Nat :=
  [0xd76aa478, 0xe8c7b756, 0x242070db, 0xc1bdceee,
   0xf57c0faf, 0x4787c62a, 0xa8304613, 0xfd469501,
   0x698098d8, 0x8b44f7af, 0xffff5bb1, 0x895cd7be,
   0x6b901122, 0xfd987193, 0xa679438e, 0x49b40821,
   0xf61e2562, 0xc040b340, 0x265e5a51, 0xe9b6c7aa,
   0xd62f105d, 0x02441453, 0xd8a1e681, 0xe7d3fbc8,
   0x21e1cde6, 0xc33707d6, 0xf4d50d87, 0x455a14ed,
   0xa9e3e905, 0xfcefa3f8, 0x676f02d9, 0x8d2a4c8a,
   0xfffa3942, 0x8771f681, 0x6d9d6122, 0xfde5380c,
   0xa4beea44, 0x4bdecfa9, 0xf6bb4b60, 0xbebfbc70,
   0x289b7ec6, 0xeaa127fa, 0xd4ef3085, 0x04881d05,
   0xd9d4d039, 0xe6db99e5, 0x1fa27cf8, 0xc4ac5665,
   0xf4292244, 0x432aff97, 0xab9423a7, 0xfc93a039,
   0x655b59c3, 0x8f0ccc92, 0xffeff47d, 0x85845dd1,
   0x6fa87e4f, 0xfe2ce6e0, 0xa3014314, 0x4e0811a1,
   0xf7537e82, 0xbd3af235, 0x2ad7d2bb, 0xeb86d391]

/-- The 64 MD5 per-round rotation amounts. -/
def md5S : List Nat :=
  [7, 12, 17, 22, 7, 12, 17, 22, 7, 12, 17, 22, 7, 12, 17, 22,
   5, 9, 14, 20, 5, 9, 14, 20, 5, 9, 14, 20, 5, 9, 14, 20,
   4, 11, 16, 23, 4, 11, 16, 23, 4, 11, 16, 23, 4, 11, 16, 23,
   6, 10, 15, 21, 6, 10, 15, 21, 6, 10, 15, 21, 6, 10, 15, 21]

/-- Group a byte list into little-endian 32-bit words. -/
def leWords : List Nat → List Nat
  | b0 :: b1 :: b2 :: b3 :: rest =>
      (b0 ||| (b1 <<< 8) ||| (b2 <<< 16) ||| (b3 <<< 24)) :: leWords rest
  | _ => []

/-- The 8 little-endian bytes of `n` (mod 2^64). -/
def le64Bytes (n : Nat) : List Nat :=
  [n % 256, (n >>> 8) % 256, (n >>> 16) % 256, (n >>> 24) % 256,
   (n >>> 32) % 256, (n >>> 40) % 256, (n >>> 48) % 256, (n >>> 56) % 256]

/-- The 4 little-endian bytes of a 32-bit word. -/
def le32Bytes (n : Nat) : List Nat :=
  [n % 256, (n >>> 8) % 256, (n >>> 16) % 256, (n >>> 24) % 256]

/-- MD5 padding: a 0x80 byte, zeros up to 56 mod 64, then the 64-bit bit
length, little-endian. -/
def md5Pad (msg : List Nat) : List Nat :=
  msg ++ 128 :: List.replicate ((119 - msg.length % 64) % 64) 0
      ++ le64Bytes ((msg.length * 8) % 18446744073709551616)

/-- Split a byte list into 64-byte blocks. The first argument is fuel, to be
instantiated with the length of the list. -/
def chunk64 : Nat → List Nat → List (List Nat)
  | 0, _ => []
  | _ + 1, [] => []
  | fuel + 1, bytes => bytes.take 64 :: chunk64 fuel (bytes.drop 64)

structure MD5State where
  a : Nat
  b : Nat
  c : Nat
  d : Nat

/-- One of the 64 MD5 rounds, on the 16 message words `m`. -/
def md5Step (m : List Nat) (st : MD5State) (i : Nat) : MD5State :=
  let fg : Nat × Nat :=
    if i < 16 then (md5F st.b st.c st.d, i)
    else if i < 32 then (md5G st.b st.c st.d, (5 * i + 1) % 16)
    else if i < 48 then (md5H st.b st.c st.d, (3 * i + 5) % 16)
    else (md5I st.b st.c st.d, (7 * i) % 16)
  let t := (fg.1 + st.a + md5K.getD i 0 + m.getD fg.2 0) % 4294967296
  ⟨st.d, add32 st.b (rotl32 t (md5S.getD i 0)), st.b, st.c⟩

/-- Compress one 64-byte block into the running state. -/
def md5Block (st : MD5State) (block : List Nat) : MD5State :=
  let m := leWords block
  let r := (List.range 64).foldl (md5Step m) st
  ⟨add32 st.a r.a, add32 st.b r.b, add32 st.c r.c, add32 st.d r.d⟩

def md5Init : MD5State := ⟨0x67452301, 0xefcdab89, 0x98badcfe, 0x10325476⟩

/-- MD5 digest of a byte list, as its 16 digest bytes.
Checked below against the standard test vectors. -/
def md5Bytes (msg : List Nat) : List Nat :=
  let padded := md5Pad msg
  let st := (chunk64 padded.length padded).foldl md5Block md5Init
  le32Bytes st.a ++ le32Bytes st.b ++ le32Bytes st.c ++ le32Bytes st.d

/-- Lowercase hex digit (Go `encoding/hex` uses the table 0123456789abcdef). -/
def hexDigit (n : Nat) : Char :=
  if n < 10 then Char.ofNat (48 + n) else Char.ofNat (87 + n)

/-- Lowercase hex encoding of a byte list, as Go `hex.EncodeToString`. -/
def hexEncodeBytes (bytes : List Nat) : String :=
  String.mk (bytes.foldr (fun b acc => hexDigit (b / 16) :: hexDigit (b % 16) :: acc) [])

/-- UTF-8 encoding of a unicode scalar value. -/
def utf8EncodeChar (n : Nat) : List Nat :=
  if n < 128 then [n]
  else if n < 2048 then [192 ||| (n >>> 6), 128 ||| (n &&& 63)]
  else if n < 65536 then
    [224 ||| (n >>> 12), 128 ||| ((n >>> 6) &&& 63), 128 ||| (n &&& 63)]
  else
    [240 ||| (n >>> 18), 128 ||| ((n >>> 12) &&& 63),
     128 ||| ((n >>> 6) &&& 63), 128 ||| (n &&& 63)]

/-- The UTF-8 bytes of a string; a Go `string` is exactly this byte sequence. -/
def utf8Encode (s : String) : List Nat :=
  s.data.foldr (fun c acc => utf8EncodeChar c.val.toNat ++ acc) []

/-- Lowercase hex MD5 of the UTF-8 bytes of a string: the composite
`hex.EncodeToString(md5.Sum([]byte(s)))` appearing in both signing paths. -/
def md5Hex (s : String) : String := hexEncodeBytes (md5Bytes (utf8Encode s))

/-- Standard test vector: the embedded digest agrees with RFC 1321 on the
empty message. -/
theorem md5Hex_empty_vector : md5Hex "" = "d41d8cd98f00b204e9800998ecf8427e" := by decide

/-- Standard test vector: the embedded digest agrees with RFC 1321 on "abc". -/
theorem md5Hex_abc_vector : md5Hex "abc" = "900150983cd24fb0d6963f7d28e17f72" := by decide

/-! ### Byte-order string comparison (Go `sort.Strings`)

Go compares strings bytewise over their UTF-8 bytes. UTF-8 is
order-preserving with respect to unicode scalar values, so bytewise order
coincides with lexicographic order on the scalar values of the characters,
which is what is defined here.
-/

/-- Lexicographic "less or equal" on character lists by scalar value. -/
def lexLeChars : List Char → List Char → Bool
  | [], _ => true
  | _ :: _, [] => false
  | a :: as, b :: bs =>
    if a.val.toNat < b.val.toNat then true
    else if b.val.toNat < a.val.toNat then false
    else lexLeChars as bs

/-- Go string order (`s <= t` under `sort.Strings`): bytewise over UTF-8,
equivalently lexicographic by scalar value. -/
def goStrLe (a b : String) : Bool := lexLeChars a.data b.data

/-- The order `goStrLe` as a decidable relation, so that the sort used by the
signers can reuse the `List.insertionSort` theory. -/
def goStrLeRel (a b : String) : Prop := goStrLe a b = true

instance : DecidableRel goStrLeRel :=
  fun a b => inferInstanceAs (Decidable (goStrLe a b = true))

theorem lexLeChars_total (as bs : List Char) :
    lexLeChars as bs = true ∨ lexLeChars bs as = true := by
  induction as generalizing bs with
  | nil => left; rfl
  | cons a as ih =>
    cases bs with
    | nil => right; rfl
    | cons b bs =>
      simp only [lexLeChars]
      rcases Nat.lt_trichotomy a.val.toNat b.val.toNat with h | h | h
      · left; simp [h]
      · rcases ih bs with h2 | h2
        · left; simp [h, h2]
        · right; simp [h, h2]
      · right; simp [h, Nat.lt_asymm h]

theorem lexLeChars_trans (as bs cs : List Char) (h1 : lexLeChars as bs = true)
    (h2 : lexLeChars bs cs = true) : lexLeChars as cs = true := by
  induction as generalizing bs cs with
  | nil => rfl
  | cons a as ih =>
    cases bs with
    | nil => simp [lexLeChars] at h1
    | cons b bs =>
      cases cs with
      | nil => simp [lexLeChars] at h2
      | cons c cs =>
        simp only [lexLeChars] at h1 h2 ⊢
        have hbc : b.val.toNat ≤ c.val.toNat := by
          by_cases h : b.val.toNat < c.val.toNat
          · omega
          · by_cases h3 : c.val.toNat < b.val.toNat
            · simp [h, h3] at h2
            · omega
        by_cases hab : a.val.toNat < b.val.toNat
        · have : a.val.toNat < c.val.toNat := Nat.lt_of_lt_of_le hab hbc
          simp [this]
        · have hba : ¬b.val.toNat < a.val.toNat := by
            by_cases h3 : b.val.toNat < a.val.toNat
            · simp [hab, h3] at h1
            · exact h3
          have hab2 : a.val.toNat = b.val.toNat := by omega
          by_cases hbc2 : b.val.toNat < c.val.toNat
          · have : a.val.toNat < c.val.toNat := hab2 ▸ hbc2
            simp [this]
          · have hcb : ¬c.val.toNat < b.val.toNat := by
              by_cases h3 : c.val.toNat < b.val.toNat
              · simp [hbc2, h3] at h2
              · exact h3
            have hbc3 : b.val.toNat = c.val.toNat := by omega
            have hac : ¬a.val.toNat < c.val.toNat := by omega
            have hca : ¬c.val.toNat < a.val.toNat := by omega
            simp only [hab, hba, if_false, if_true] at h1
            simp only [hbc2, hcb, if_false, if_true] at h2
            simp [hac, hca]
            exact ih bs cs h1 h2

theorem lexLeChars_antisymm (as bs : List Char) (h1 : lexLeChars as bs = true)
    (h2 : lexLeChars bs as = true) : as = bs := by
  induction as generalizing bs with
  | nil =>
    cases bs with
    | nil => rfl
    | cons b bs => simp [lexLeChars] at h2
  | cons a as ih =>
    cases bs with
    | nil => simp [lexLeChars] at h1
    | cons b bs =>
      simp only [lexLeChars] at h1 h2
      by_cases hab : a.val.toNat < b.val.toNat
      · simp [hab, Nat.lt_asymm hab] at h2
      · by_cases hba : b.val.toNat < a.val.toNat
        · simp [hab, hba] at h1
        · have heq : a = b := Char.ext (UInt32.ext (by omega))
          simp [hab, hba] at h1 h2
          exact heq ▸ congrArg (a :: ·) (ih bs h1 h2)

instance : IsTotal String goStrLeRel :=
  ⟨fun a b => lexLeChars_total a.data b.data⟩

instance : IsTrans String goStrLeRel :=
  ⟨fun a b c => lexLeChars_trans a.data b.data c.data⟩

instance : IsAntisymm String goStrLeRel :=
  ⟨fun a b h1 h2 => String.ext (lexLeChars_antisymm a.data b.data h1 h2)⟩

/-! ### Canonical Signer (src/utils/signature.go)

A Go `map[string]string` is embedded as an association list
`List (String × String)`; a Go map has unique keys, which theorems assume as
`(params.map Prod.fst).Nodup` where it matters. Go map iteration order is
unspecified; `GenerateSignature` sorts the keys, and order-independence of the
result is proved as `generateSignature_order_independent`.
-/

/-- The key set of a parameter mapping (`for k := range params`). -/
def paramKeys (params : List (String × String)) : List String :=
  params.map Prod.fst

/-- Go map indexing `params[k]` (zero value `""` when absent). -/
def lookupParam (params : List (String × String)) (k : String) : String :=
  match params.find? (fun p => p.1 == k) with
  | some p => p.2
  | none => ""

/-- `sort.Strings(keys)`: ascending bytewise order. -/
def sortedParamKeys (params : List (String × String)) : List String :=
  List.insertionSort goStrLeRel (paramKeys params)

/-- The signed string built by `GenerateSignature` (signature.go lines 21-30):
a `strings.Builder` fold writing `k`, `"="`, `params[k]`, `"&"` for each sorted
key, then `"app_secret="` and the secret. -/
def buildSignString (params : List (String × String)) (appSecret : String) : String :=
  (sortedParamKeys params).foldl
    (fun acc k => acc ++ k ++ "=" ++ lookupParam params k ++ "&") ""
    ++ "app_secret=" ++ appSecret

/-- `utils.GenerateSignature` (signature.go lines 13-36): lowercase hex MD5 of
the signed string. No key is excluded by this function itself. -/
def GenerateSignature (params : List (String × String)) (appSecret : String) : String :=
  md5Hex (buildSignString params appSecret)

/-- The signed string as §4.1 of the spec words it: sort the keys ascending by
byte value, concatenate `k=v&` for each key in that order (trailing `&`
included), then append the literal `app_secret=` followed by the secret. -/
def specSignedString (params : List (String × String)) (secret : String) : String :=
  String.join ((List.insertionSort goStrLeRel (params.map Prod.fst)).map
    (fun k => k ++ "=" ++ lookupParam params k ++ "&"))
    ++ "app_secret=" ++ secret

/-- The signature as the spec words it: lowercase hex encoding of the MD5
digest of the UTF-8 bytes of `specSignedString`. -/
def specSignature (params : List (String × String)) (secret : String) : String :=
  hexEncodeBytes (md5Bytes (utf8Encode (specSignedString params secret)))

/-! ### Signature middleware (src/middleware/signature.go) -/

/-- `middleware.SignatureConfig`; `expireSeconds` is the value
`int64(config.Expire.Seconds())` the middleware compares against. -/
structure SignatureConfig where
  appKey : String
  appSecret : String
  expireSeconds : Int
deriving DecidableEq

/-- `middleware.SignatureParams`, as bound from the query by
`ShouldBindQuery`. -/
structure SignatureParams where
  appKey : String
  timestamp : Int
  nonce : String
  sign : String
deriving DecidableEq

/-- The middleware-visible parts of an inbound request: the method, the
`signature` header (empty when absent), the bound query struct, and the raw
query / post-form parameter lists. -/
structure SignedRequest where
  method : String
  headerSignature : String
  params : SignatureParams
  query : List (String × String)
  postForm : List (String × String)
deriving DecidableEq

/-- What a middleware does with a request: hand it to the rest of the chain
(`c.Next()`), or abort with an HTTP status, a business code and a message
(`ErrorWrapper`). -/
inductive MiddlewareOutcome where
  | proceed
  | reject (status : Nat) (code : Nat) (msg : String)
deriving DecidableEq

/-- Go map assignment `m[k] = v` on an association list: overwrite the
existing entry for the key, or append a new one. -/
def insertParam (m : List (String × String)) (kv : String × String) :
    List (String × String) :=
  if m.any (fun p => p.1 == kv.1) then
    m.map (fun p => if p.1 == kv.1 then (kv.1, kv.2) else p)
  else m ++ [kv]

/-- Lines 70-85 of signature.go: merge the query parameters and the post-form
parameters into one map, skipping the `sign` key. -/
def mergeRequestParams (entries : List (String × String)) : List (String × String) :=
  entries.foldl (fun m kv => if kv.1 != "sign" then insertParam m kv else m) []

/-- Lines 87-114 of signature.go as a function of the raw request parameter
mapping: exclude `sign`, recompute the signature over the rest with the same
algorithm as `GenerateSignature`, and compare with the provided digest. -/
def verifySignature (entries : List (String × String)) (providedSign : String)
    (secret : String) : Bool :=
  GenerateSignature (mergeRequestParams entries) secret == providedSign

/-- `middleware.Signature` as shipped (lines 31-36): the handler body opens
with `c.Next(); return` under the comment 临时禁用签名验证 ("temporarily
disable signature verification"), so every request proceeds to the rest of the
chain and the verification code below those lines is unreachable. -/
def Signature (cfg : SignatureConfig) (req : SignedRequest) (now : Int) :
    MiddlewareOutcome :=
  MiddlewareOutcome.proceed

/-- The disabled verification body of `middleware.Signature` (lines 37-121),
embedded on its own: OPTIONS requests pass; a non-empty `signature` header
skips query verification entirely; otherwise the app key, the timestamp
freshness and the recomputed signature are checked in that order, each failure
aborting with status 400. Binding errors from `ShouldBindQuery` are not
modelled: `req.params` is taken as the successfully bound struct. -/
def signatureVerificationBody (cfg : SignatureConfig) (req : SignedRequest)
    (now : Int) : MiddlewareOutcome :=
  if req.method = "OPTIONS" then .proceed
  else if req.headerSignature ≠ "" then .proceed
  else if req.params.appKey ≠ cfg.appKey then .reject 400 400 "无效的AppKey"
  else if now - req.params.timestamp > cfg.expireSeconds then .reject 400 400 "签名已过期"
  else if verifySignature (req.query ++ req.postForm) req.params.sign cfg.appSecret
  then .proceed
  else .reject 400 400 "签名验证失败"

/-! ### Session Token Issuer/Verifier (middleware/jwt.go, unnamed part 000)

`GenerateToken` and `ParseToken` build and check a signed-claims token through
the `golang-jwt` library, whose serialization and HMAC-SHA256 internals are
outside this repository. -/

/-- The `AuthError` taxonomy of §7 restricted to what token verification can
report. -/
inductive AuthError where
  | malformed
  | badSignature
  | expired
deriving DecidableEq

/-- `middleware.Claims` (jwt.go lines 1264-1267): the custom `user_id` claim
plus the registered claims `GenerateToken` sets. -/
structure Claims where
  userID : Nat
  expiresAt : Int
  issuedAt : Int
  subject : String
deriving DecidableEq

/-- Modelled from the spec: the jwt library's claim serialization (not part of
this repository) — any injective encoding of the claims; a concrete tagged
concatenation is used. -/
def encodeClaims (c : Claims) : String :=
  "user_id=" ++ toString c.userID ++ ";exp=" ++ toString c.expiresAt
    ++ ";iat=" ++ toString c.issuedAt ++ ";sub=" ++ c.subject

/-- Modelled from the spec: "integrity is enforced via a standard
signed-claims mechanism (HMAC-SHA256-equivalent) keyed by the shared server
secret" (§4.3) — modelled as a deterministic keyed digest of the encoded
claims; only key-dependence and determinism are relied on. -/
def signedClaimsTag (secret : String) (payload : String) : String :=
  md5Hex (secret ++ "." ++ payload)

/-- A signed token: the claims it carries plus its integrity tag. -/
structure Token where
  claims : Claims
  tag : String
deriving DecidableEq

/-- `middleware.GenerateToken` (jwt.go lines 1270-1286): claims with the
user ID, `expiresAt = now + expire`, `issuedAt = now`, subject `user_token`,
signed with the secret. -/
def GenerateToken (userID : Nat) (secret : String) (expire : Int) (now : Int) :
    Token :=
  let claims : Claims := ⟨userID, now + expire, now, "user_token"⟩
  ⟨claims, signedClaimsTag secret (encodeClaims claims)⟩

/-- `middleware.ParseToken` (jwt.go lines 1289-1311) over the modelled
library: a wrong integrity tag fails with `badSignature`, an expired token
(current time ≥ `expiresAt`, per §4.3) with `expired`, otherwise the claims
are returned. -/
def ParseToken (tok : Token) (secret : String) (now : Int) :
    Except AuthError Claims :=
  if tok.tag ≠ signedClaimsTag secret (encodeClaims tok.claims) then
    .error .badSignature
  else if tok.claims.expiresAt ≤ now then .error .expired
  else .ok tok.claims

/-! ### JWT middleware (jwt.go lines 1216-1261) -/

/-- Outcome of the JWT middleware: proceed to the handler with a user ID set
in the context, or abort with a status, business code and message. -/
inductive JWTOutcome where
  | proceed (userID : Nat)
  | reject (status : Nat) (code : Nat) (msg : String)
deriving DecidableEq

/-- `middleware.JWTAuth` as shipped (lines 1217-1221): the handler opens with
`c.Set("userID", uint(1)); c.Next(); return` under the comment 临时禁用JWT验证
("temporarily disable JWT verification"), so every request proceeds to the
handler as user 1 and the verification code below is unreachable. -/
def JWTAuth (secret : String) (authHeader : String) : JWTOutcome :=
  JWTOutcome.proceed 1

/-- Go `strings.SplitN(s, " ", 2)`: split at the first space only. -/
def splitN2 : List Char → Option (List Char × List Char)
  | [] => none
  | c :: cs =>
    if c = ' ' then some ([], cs)
    else (splitN2 cs).map (fun p => (c :: p.1, p.2))

/-- The parts list `strings.SplitN(authHeader, " ", 2)` produces. -/
def authHeaderParts (s : String) : List String :=
  match splitN2 s.data with
  | none => [s]
  | some (a, b) => [String.mk a, String.mk b]

/-- The disabled verification body of `JWTAuth` (lines 1223-1259): an empty
`Authorization` header, a parts list that is not exactly
`["Bearer", <token>]`, and a token that fails `ParseToken` are each rejected
with status 401; otherwise the parsed user ID is set and the handler runs.
`decodeToken` stands for the jwt library's compact-serialization parser
(`none` = `AuthError::Malformed`). -/
def jwtAuthBody (secret : String) (now : Int) (decodeToken : String → Option Token)
    (authHeader : String) : JWTOutcome :=
  if authHeader = "" then .reject 401 401 "请先登录"
  else
    let parts := authHeaderParts authHeader
    if ¬(parts.length = 2 ∧ parts.getD 0 "" = "Bearer") then
      .reject 401 401 "无效的认证格式"
    else
      match decodeToken (parts.getD 1 "") with
      | none => .reject 401 401 "认证失败"
      | some tok =>
        match ParseToken tok secret now with
        | .error _ => .reject 401 401 "认证失败"
        | .ok claims => .proceed claims.userID

/-! ### Structured Logger severity routing (src/utils/logger.go) -/

/-- `zapcore.ErrorLevel`. The zapcore levels are int8-valued:
Debug = -1, Info = 0, Warn = 1, Error = 2, DPanic = 3, Panic = 4, Fatal = 5. -/
def errorLevel : Int := 2

/-- The `highPriority` level enabler (logger.go lines 78-80):
`lvl >= zapcore.ErrorLevel`. -/
def highPriority (lvl : Int) : Bool := errorLevel ≤ lvl

/-- The `lowPriority` level enabler (logger.go lines 81-83):
`lvl < zapcore.ErrorLevel`. -/
def lowPriority (lvl : Int) : Bool := lvl < errorLevel

/-- The two file sinks built in `InitLoggerWithConfig`. -/
inductive FileSink where
  | errorFile
  | infoFile
deriving DecidableEq

/-- The file sinks a record of severity `lvl` is written to (logger.go lines
120-126): the error file core is gated by `highPriority`, the info file core
by `lowPriority`; console mirroring (lines 129-136) duplicates the same
gating onto stderr/stdout and is not a file sink. -/
def fileSinksFor (lvl : Int) : List FileSink :=
  (if highPriority lvl then [FileSink.errorFile] else [])
    ++ (if lowPriority lvl then [FileSink.infoFile] else [])

/-! ### Audit Recorder (src/utils/request_logger.go)

The package-level globals (`requestLogger`, `reqLogOnce`) and the observable
effects of a call are reified. `os.MkdirAll` and `json.Marshal` are outside
the repository, so their outcomes are parameters. -/

/-- Observable effects of the audit recorder: application-log records emitted
through the Structured Logger, and writes to the audit file. -/
inductive LogEffect where
  | errorLog (msg : String)
  | infoLog (msg : String)
  | auditWrite (line : String)
deriving DecidableEq

/-- The `*RequestLogger` pointed to by the global, once allocated;
`writerReady` is whether its lumberjack `writer` field is non-nil. -/
structure RequestLoggerState where
  writerReady : Bool
deriving DecidableEq

/-- The package globals of request_logger.go: whether `reqLogOnce` has been
consumed, and the `requestLogger` pointer (`none` = nil). -/
structure ReqLogGlobals where
  onceConsumed : Bool
  requestLogger : Option RequestLoggerState
deriving DecidableEq

/-- `utils.InitRequestLogger` (lines 45-91): a `sync.Once` guard around
directory creation and logger allocation. On `MkdirAll` failure the closure
logs an error and returns with `requestLogger` still nil — but the `Once` is
consumed all the same. On success the logger is allocated and its writer set
up via `updateWriter` (directly, or by the daily-rotation goroutine's first
iteration when `RotateDaily` is set). -/
def InitRequestLogger (mkdirOk : Bool) (g : ReqLogGlobals) :
    ReqLogGlobals × List LogEffect :=
  if g.onceConsumed then (g, [])
  else if !mkdirOk then
    (⟨true, none⟩, [.errorLog "无法创建请求日志目录"])
  else
    (⟨true, some ⟨true⟩⟩, [.infoLog "请求日志系统初始化成功"])

/-- Result of one `LogRequest` call: the globals afterwards, the effects in
order, and whether the call panicked (nil-pointer dereference). -/
structure LogRequestResult where
  globals : ReqLogGlobals
  effects : List LogEffect
  panicked : Bool
deriving DecidableEq

/-- `utils.LogRequest` (lines 120-149): lazily initialize when the global is
nil (line 121-124); serialize the entry (`marshal` is the `json.Marshal`
outcome) — on error, log through the Structured Logger and return (lines
127-131); otherwise lock `requestLogger.mutex` — a nil-pointer panic when
`requestLogger` is still nil — ensure the writer exists, and append the JSON
line plus a newline to the audit file (lines 133-148). A `Write` error would
only add an error log; writes are taken as succeeding here. -/
def LogRequest (mkdirOk : Bool) (marshal : Except String String)
    (g : ReqLogGlobals) : LogRequestResult :=
  let init := if g.requestLogger.isNone then InitRequestLogger mkdirOk g else (g, [])
  match marshal with
  | .error _ => ⟨init.1, init.2 ++ [.errorLog "请求日志序列化失败"], false⟩
  | .ok line =>
    match init.1.requestLogger with
    | none => ⟨init.1, init.2, true⟩
    | some _ =>
      ⟨⟨init.1.onceConsumed, some ⟨true⟩⟩,
        init.2 ++ [.auditWrite (line ++ "\n")], false⟩

/-- Does an effect list contain a write to the audit file? -/
def hasAuditWrite (effs : List LogEffect) : Bool :=
  effs.any fun e =>
    match e with
    | .auditWrite _ => true
    | _ => false

/-! ### Helper lemmas -/

theorem strJoin_foldl (ys : List String) (a : String) :
    ys.foldl (fun r s => r ++ s) a = a ++ ys.foldl (fun r s => r ++ s) "" := by
  induction ys generalizing a with
  | nil => simp
  | cons y ys ih =>
    simp only [List.foldl_cons]
    rw [ih (a ++ y), ih ("" ++ y)]
    simp [String.append_assoc]

theorem strJoin_cons (x : String) (xs : List String) :
    String.join (x :: xs) = x ++ String.join xs := by
  show xs.foldl (fun r s => r ++ s) ("" ++ x) = x ++ xs.foldl (fun r s => r ++ s) ""
  rw [strJoin_foldl]
  simp

theorem foldl_sign_writer (g : String → String) (l : List String) (init : String) :
    l.foldl (fun acc k => acc ++ k ++ "=" ++ g k ++ "&") init
      = init ++ String.join (l.map (fun k => k ++ "=" ++ g k ++ "&")) := by
  induction l generalizing init with
  | nil => simp [String.join]
  | cons k l ih =>
    simp only [List.foldl_cons, List.map_cons]
    rw [ih, strJoin_cons]
    simp [String.append_assoc]

theorem buildSignString_eq_spec (params : List (String × String)) (secret : String) :
    buildSignString params secret = specSignedString params secret := by
  unfold buildSignString specSignedString sortedParamKeys paramKeys
  rw [foldl_sign_writer]
  simp

theorem find?_eq_head?_of_filter {α : Type} (p : α → Bool) (l : List α) :
    l.find? p = (l.filter p).head? := by
  induction l with
  | nil => rfl
  | cons a l ih =>
    by_cases h : p a = true
    · rw [List.find?_cons_of_pos l h, List.filter_cons_of_pos h, List.head?_cons]
    · rw [List.find?_cons_of_neg l h, List.filter_cons_of_neg h, ih]

theorem filter_key_len_le_one (l : List (String × String)) (k : String)
    (h : (l.map Prod.fst).Nodup) : (l.filter (fun p => p.1 == k)).length ≤ 1 := by
  induction l with
  | nil => simp
  | cons a l ih =>
    simp only [List.map_cons, List.nodup_cons] at h
    by_cases ha : (a.1 == k) = true
    · have hnil : l.filter (fun p => p.1 == k) = [] := by
        rw [List.filter_eq_nil_iff]
        intro q hq hqk
        apply h.1
        have hq1 : q.1 = k := by simpa using hqk
        have ha1 : a.1 = k := by simpa using ha
        rw [List.mem_map]
        exact ⟨q, hq, by rw [hq1, ha1]⟩
      rw [@List.filter_cons_of_pos _ (fun p => p.1 == k) a l ha, hnil]
      simp
    · rw [@List.filter_cons_of_neg _ (fun p => p.1 == k) a l ha]
      exact ih h.2

theorem find?_perm_key (p1 p2 : List (String × String)) (hperm : p1.Perm p2)
    (h : (p1.map Prod.fst).Nodup) (k : String) :
    p1.find? (fun p => p.1 == k) = p2.find? (fun p => p.1 == k) := by
  rw [find?_eq_head?_of_filter, find?_eq_head?_of_filter]
  have hf : (p1.filter (fun p => p.1 == k)).Perm (p2.filter (fun p => p.1 == k)) :=
    hperm.filter _
  have h1 : (p1.filter (fun p => p.1 == k)).length ≤ 1 := filter_key_len_le_one p1 k h
  rcases Nat.le_one_iff_eq_zero_or_eq_one.mp h1 with h0 | h1'
  · have e1 := List.eq_nil_of_length_eq_zero h0
    have e2 := List.eq_nil_of_length_eq_zero (hf.length_eq ▸ h0)
    rw [e1, e2]
  · obtain ⟨a, e1⟩ := List.length_eq_one.mp h1'
    have e2 : p2.filter (fun p => p.1 == k) = [a] :=
      List.perm_singleton.mp (e1 ▸ hf).symm
    rw [e1, e2]

theorem lookupParam_perm (p1 p2 : List (String × String)) (hperm : p1.Perm p2)
    (h : (p1.map Prod.fst).Nodup) (k : String) :
    lookupParam p1 k = lookupParam p2 k := by
  unfold lookupParam
  rw [find?_perm_key p1 p2 hperm h k]

theorem sortedParamKeys_perm (p1 p2 : List (String × String)) (hperm : p1.Perm p2) :
    sortedParamKeys p1 = sortedParamKeys p2 := by
  apply @List.eq_of_perm_of_sorted String goStrLeRel _ _ _
  · exact (List.perm_insertionSort _ _).trans
      ((hperm.map Prod.fst).trans (List.perm_insertionSort _ _).symm)
  · exact List.sorted_insertionSort _ _
  · exact List.sorted_insertionSort _ _

theorem foldl_insert_disjoint (l : List (String × String)) :
    ∀ acc : List (String × String),
      (l.map Prod.fst).Nodup → (∀ p ∈ l, p.1 ≠ "sign") →
      (∀ p ∈ l, ∀ q ∈ acc, q.1 ≠ p.1) →
      l.foldl (fun m kv => if kv.1 != "sign" then insertParam m kv else m) acc
        = acc ++ l := by
  induction l with
  | nil => intro acc _ _ _; simp
  | cons kv l ih =>
    intro acc hnd hsig hdisj
    simp only [List.map_cons, List.nodup_cons] at hnd
    simp only [List.foldl_cons]
    have hs : (kv.1 != "sign") = true := by
      simpa using hsig kv (List.mem_cons_self kv l)
    rw [if_pos hs]
    have hany : acc.any (fun p => p.1 == kv.1) = false := by
      rw [List.any_eq_false]
      intro q hq
      simpa using hdisj kv (List.mem_cons_self kv l) q hq
    have hins : insertParam acc kv = acc ++ [kv] := by
      unfold insertParam
      rw [hany]
      simp
    rw [hins]
    rw [ih (acc ++ [kv]) hnd.2 (fun p hp => hsig p (List.mem_cons_of_mem kv hp)) ?disj]
    · rw [List.append_assoc, List.singleton_append]
    case disj =>
      intro p hp q hq
      rcases List.mem_append.mp hq with hqa | hqs
      · exact hdisj p (List.mem_cons_of_mem kv hp) q hqa
      · have : q = kv := by simpa using hqs
        subst this
        intro hcontra
        exact hnd.1 (List.mem_map.mpr ⟨p, hp, hcontra.symm⟩)

theorem mergeRequestParams_eq_self (l : List (String × String))
    (hnodup : (l.map Prod.fst).Nodup) (hsign : ∀ p ∈ l, p.1 ≠ "sign") :
    mergeRequestParams l = l := by
  unfold mergeRequestParams
  rw [foldl_insert_disjoint l [] hnodup hsign (by intro p _ q hq; simp at hq)]
  simp

theorem initReqLogger_no_audit (mkdirOk : Bool) (g : ReqLogGlobals) :
    hasAuditWrite (InitRequestLogger mkdirOk g).2 = false := by
  unfold InitRequestLogger hasAuditWrite
  cases hg : g.onceConsumed <;> cases hm : mkdirOk <;> simp

theorem hasAuditWrite_append (xs ys : List LogEffect) :
    hasAuditWrite (xs ++ ys) = (hasAuditWrite xs || hasAuditWrite ys) := by
  unfold hasAuditWrite
  simp [List.any_append]

/-! ### The claims -/

/-- Claim C1: for every parameter mapping P (signature field excluded) and
secret S, the computed signature equals the lowercase hex encoding of the MD5
digest of the UTF-8 bytes of the string built by sorting P's keys ascending by
byte value, concatenating `k=v&` for each key in that order, and appending
`app_secret=` followed by S; and for empty P the signed string is exactly
`app_secret=` followed by S. -/
theorem generateSignature_matches_spec (params : List (String × String))
    (secret : String) (h : ∀ p ∈ params, p.1 ≠ "sign" ∧ p.1 ≠ "signature") :
    GenerateSignature params secret = specSignature params secret
      ∧ buildSignString [] secret = "app_secret=" ++ secret := by
  constructor
  · show md5Hex (buildSignString params secret) = specSignature params secret
    rw [buildSignString_eq_spec]
    rfl
  · have hb : buildSignString [] secret = "" ++ "app_secret=" ++ secret := rfl
    rw [hb]
    simp

/-- Claim C1 witness at a concrete mapping and secret. -/
theorem generateSignature_matches_spec_witness :
    (∀ p ∈ ([("foo", "1")] : List (String × String)), p.1 ≠ "sign" ∧ p.1 ≠ "signature")
      ∧ (GenerateSignature [("foo", "1")] "s3cr3t" = specSignature [("foo", "1")] "s3cr3t"
          ∧ buildSignString [] "s3cr3t" = "app_secret=" ++ "s3cr3t") :=
  ⟨by decide, generateSignature_matches_spec [("foo", "1")] "s3cr3t" (by decide)⟩

/-- The correctly computed signature of the §8 end-to-end scenario: parameters
`{app_key: demo, timestamp: 1700000000, nonce: abc, foo: 1, bar: 2}` signed
with secret `s3cr3t`. -/
def c2GoodSign : String :=
  GenerateSignature
    [("app_key", "demo"), ("timestamp", "1700000000"), ("nonce", "abc"),
     ("foo", "1"), ("bar", "2")] "s3cr3t"

def c2Config : SignatureConfig := ⟨"demo", "s3cr3t", 300⟩

/-- The §8 scenario request after tampering: `bar` changed to `3` while `sign`
still carries the digest computed over `bar = 2`. -/
def c2TamperedRequest : SignedRequest :=
  ⟨"POST", "",
   ⟨"demo", 1700000000, "abc", c2GoodSign⟩,
   [("app_key", "demo"), ("timestamp", "1700000000"), ("nonce", "abc"),
    ("foo", "1"), ("bar", "3"), ("sign", c2GoodSign)], []⟩

/-- Claim C2: the shipped `Signature` middleware hands the tampered request of
the §8 scenario to the handler (it returns `c.Next()` before any check), while
the disabled verification body below its early return would have rejected the
same request with the bad-signature error. The claim that the pipeline rejects
before the handler contradicts the shipped code. -/
theorem tampered_request_reaches_handler :
    Signature c2Config c2TamperedRequest 1700000000 = MiddlewareOutcome.proceed
      ∧ signatureVerificationBody c2Config c2TamperedRequest 1700000000
          = MiddlewareOutcome.reject 400 400 "签名验证失败" :=
  ⟨rfl, by decide⟩

/-- Claim C3: the shipped `JWTAuth` middleware proceeds to the handler as user
1 on every request, including each malformed-`Authorization` shape (missing
header, wrong scheme, single part), while the disabled verification body below
its early return would have rejected each of them with a 401. The claim that
the session check rejects them contradicts the shipped code. -/
theorem malformed_auth_header_not_rejected (secret : String) (now : Int)
    (decodeToken : String → Option Token) :
    JWTAuth secret "" = JWTOutcome.proceed 1
      ∧ JWTAuth secret "Token abc" = JWTOutcome.proceed 1
      ∧ jwtAuthBody secret now decodeToken "" = JWTOutcome.reject 401 401 "请先登录"
      ∧ jwtAuthBody secret now decodeToken "Token abc"
          = JWTOutcome.reject 401 401 "无效的认证格式"
      ∧ jwtAuthBody secret now decodeToken "Bearer"
          = JWTOutcome.reject 401 401 "无效的认证格式" :=
  ⟨rfl, rfl, rfl, rfl, rfl⟩

/-- Claim C4 counterexample: for a mapping that itself contains a `sign` key,
the round trip fails — `GenerateSignature` signs over the `sign` entry while
the middleware's verification excludes it before recomputing. -/
theorem verify_roundtrip_fails_on_sign_param :
    verifySignature [("sign", "x")] (GenerateSignature [("sign", "x")] "s") "s"
      = false := by decide

/-- Claim C4 as amended: for every parameter mapping with unique keys and no
`sign` key, and every secret, verifying the mapping against its own computed
signature succeeds. -/
theorem verify_roundtrip (params : List (String × String)) (secret : String)
    (hnodup : (params.map Prod.fst).Nodup) (hsign : ∀ p ∈ params, p.1 ≠ "sign") :
    verifySignature params (GenerateSignature params secret) secret = true := by
  unfold verifySignature
  rw [mergeRequestParams_eq_self params hnodup hsign]
  simp

/-- Claim C4 witness at a concrete mapping and secret. -/
theorem verify_roundtrip_witness :
    (([("a", "1")] : List (String × String)).map Prod.fst).Nodup
      ∧ (∀ p ∈ ([("a", "1")] : List (String × String)), p.1 ≠ "sign")
      ∧ verifySignature [("a", "1")] (GenerateSignature [("a", "1")] "s") "s" = true :=
  ⟨by decide, by decide, verify_roundtrip [("a", "1")] "s" (by decide) (by decide)⟩

/-- Claim C5: for a request that reaches the freshness gate (not OPTIONS, no
`signature` header, matching app key), the expiry rejection happens exactly
when `now - timestamp > window`; in particular, with a nonnegative window a
timestamp from the future is never rejected as expired (no lower bound is
checked). -/
theorem freshness_window (cfg : SignatureConfig) (req : SignedRequest) (now : Int)
    (hm : req.method ≠ "OPTIONS") (hh : req.headerSignature = "")
    (hk : req.params.appKey = cfg.appKey) :
    (signatureVerificationBody cfg req now = MiddlewareOutcome.reject 400 400 "签名已过期"
        ↔ now - req.params.timestamp > cfg.expireSeconds)
      ∧ (0 ≤ cfg.expireSeconds → now < req.params.timestamp →
          signatureVerificationBody cfg req now
            ≠ MiddlewareOutcome.reject 400 400 "签名已过期") := by
  unfold signatureVerificationBody
  rw [if_neg hm, if_neg (by simp [hh]), if_neg (by simp [hk])]
  constructor
  · constructor
    · intro hexp
      by_contra hlt
      rw [if_neg hlt] at hexp
      cases hv : verifySignature (req.query ++ req.postForm) req.params.sign cfg.appSecret
      · rw [if_neg (by simp [hv])] at hexp
        exact absurd hexp (by decide)
      · rw [if_pos hv] at hexp
        exact absurd hexp (by decide)
    · intro hgt
      rw [if_pos hgt]
  · intro hw hfut
    have hn : ¬(now - req.params.timestamp > cfg.expireSeconds) := by omega
    rw [if_neg hn]
    intro hexp
    cases hv : verifySignature (req.query ++ req.postForm) req.params.sign cfg.appSecret
    · rw [if_neg (by simp [hv])] at hexp
      exact absurd hexp (by decide)
    · rw [if_pos hv] at hexp
      exact absurd hexp (by decide)

/-- Claim C5 witness: a request 900 seconds old against a 300-second window is
rejected as expired. -/
theorem freshness_window_witness :
    ((1000 : Int) - 100 > 300)
      ∧ signatureVerificationBody ⟨"demo", "s", 300⟩
          ⟨"GET", "", ⟨"demo", 100, "n", "x"⟩, [], []⟩ 1000
          = MiddlewareOutcome.reject 400 400 "签名已过期" :=
  ⟨by decide,
    (freshness_window ⟨"demo", "s", 300⟩ ⟨"GET", "", ⟨"demo", 100, "n", "x"⟩, [], []⟩
      1000 (by decide) rfl rfl).1.mpr (by decide)⟩

/-- Claim C6: issuing a session token for a subject and immediately verifying
it with the same secret succeeds and returns the original subject ID (with the
expiry and issue instants `GenerateToken` set). -/
theorem token_roundtrip (userID : Nat) (secret : String) (ttl : Int) (now : Int)
    (h : 0 < ttl) :
    ParseToken (GenerateToken userID secret ttl now) secret now
      = Except.ok ⟨userID, now + ttl, now, "user_token"⟩ := by
  unfold GenerateToken ParseToken
  rw [if_neg (fun hc => hc rfl)]
  rw [if_neg (by omega : ¬(now + ttl ≤ now))]

/-- Claim C6 witness at a concrete subject, secret and TTL. -/
theorem token_roundtrip_witness :
    ((0 : Int) < 3600)
      ∧ ParseToken (GenerateToken 7 "k" 3600 0) "k" 0
          = Except.ok ⟨7, 0 + 3600, 0, "user_token"⟩ :=
  ⟨by decide, token_roundtrip 7 "k" 3600 0 (by decide)⟩

/-- Claim C7: two parameter mappings holding the same key-value pairs in
different orders produce the same signature, for every secret. -/
theorem generateSignature_order_independent (p1 p2 : List (String × String))
    (secret : String) (hperm : p1.Perm p2) (hnodup : (p1.map Prod.fst).Nodup) :
    GenerateSignature p1 secret = GenerateSignature p2 secret := by
  unfold GenerateSignature buildSignString
  rw [sortedParamKeys_perm p1 p2 hperm]
  have hlook := lookupParam_perm p1 p2 hperm hnodup
  have hf : (sortedParamKeys p2).foldl
        (fun acc k => acc ++ k ++ "=" ++ lookupParam p1 k ++ "&") ""
      = (sortedParamKeys p2).foldl
        (fun acc k => acc ++ k ++ "=" ++ lookupParam p2 k ++ "&") "" :=
    List.foldl_ext _ _ _ (fun acc b _ => by rw [hlook b])
  rw [hf]

/-- Claim C7 witness at a concrete pair of reordered mappings. -/
theorem generateSignature_order_independent_witness :
    ([("b", "2"), ("a", "1")] : List (String × String)).Perm [("a", "1"), ("b", "2")]
      ∧ (([("b", "2"), ("a", "1")] : List (String × String)).map Prod.fst).Nodup
      ∧ GenerateSignature [("b", "2"), ("a", "1")] "s"
          = GenerateSignature [("a", "1"), ("b", "2")] "s" :=
  ⟨by decide, by decide,
    generateSignature_order_independent _ _ "s" (by decide) (by decide)⟩

/-- Claim C8: when serialization of an audit entry fails, `LogRequest` logs
the failure through the Structured Logger, does not panic or propagate the
error, and performs no write to the audit file for that entry. -/
theorem marshal_failure_drops_entry (g : ReqLogGlobals) (mkdirOk : Bool) (e : String) :
    (LogRequest mkdirOk (Except.error e) g).panicked = false
      ∧ LogEffect.errorLog "请求日志序列化失败"
          ∈ (LogRequest mkdirOk (Except.error e) g).effects
      ∧ hasAuditWrite (LogRequest mkdirOk (Except.error e) g).effects = false := by
  have heff : (LogRequest mkdirOk (Except.error e) g).effects
      = (if g.requestLogger.isNone then InitRequestLogger mkdirOk g else (g, [])).2
          ++ [LogEffect.errorLog "请求日志序列化失败"] := rfl
  refine ⟨rfl, ?_, ?_⟩
  · rw [heff]
    exact List.mem_append_right _ (List.mem_singleton.mpr rfl)
  · rw [heff, hasAuditWrite_append]
    have h2 : hasAuditWrite [LogEffect.errorLog "请求日志序列化失败"] = false := rfl
    rw [h2, Bool.or_false]
    cases hq : g.requestLogger.isNone
    · rw [if_neg (by simp)]
      rfl
    · rw [if_pos rfl]
      exact initReqLogger_no_audit mkdirOk g

/-- Claim C9: every log record goes to exactly one of the two file sinks —
error-severity-and-above records only to the error file, records below only to
the other file; the two level enablers are disjoint and cover every level. -/
theorem severity_partition (lvl : Int) :
    (errorLevel ≤ lvl → fileSinksFor lvl = [FileSink.errorFile])
      ∧ (lvl < errorLevel → fileSinksFor lvl = [FileSink.infoFile])
      ∧ (fileSinksFor lvl).length = 1
      ∧ ¬(highPriority lvl = true ∧ lowPriority lvl = true)
      ∧ (highPriority lvl = true ∨ lowPriority lvl = true) := by
  unfold fileSinksFor highPriority lowPriority errorLevel
  by_cases hge : (2 : Int) ≤ lvl
  · have hlt : ¬(lvl < 2) := by omega
    rw [if_pos (by simpa using hge), if_neg (by simpa using hlt)]
    exact ⟨fun _ => rfl, fun hc => absurd hc hlt, rfl,
      by simp [hlt], Or.inl (by simpa using hge)⟩
  · have hlt : lvl < 2 := by omega
    rw [if_neg (by simpa using hge), if_pos (by simpa using hlt)]
    exact ⟨fun hc => absurd hc hge, fun _ => rfl, rfl,
      by simp [hge], Or.inr (by simpa using hlt)⟩

/-- Claim C9 witness at the boundary levels Error (2) and Info (0). -/
theorem severity_partition_witness :
    fileSinksFor 2 = [FileSink.errorFile] ∧ fileSinksFor 0 = [FileSink.infoFile] :=
  ⟨(severity_partition 2).1 (by decide), (severity_partition 0).2.1 (by decide)⟩

/-- Claim C10 counterexample: after a failed first initialization, a recording
call whose entry fails to serialize returns without panicking (it logs the
serialization failure and returns before touching the nil recorder), so not
every subsequent recording call panics. -/
theorem record_after_failed_init_no_panic_on_marshal_error :
    (InitRequestLogger false ⟨false, none⟩).1.requestLogger = none
      ∧ (LogRequest true (Except.error "boom")
          (InitRequestLogger false ⟨false, none⟩).1).panicked = false :=
  ⟨rfl, rfl⟩

/-- Claim C10 as amended: if the first initialization fails to create the log
directory, the once-guard is consumed with the recorder left nil; every later
initialization call is a no-op; and every subsequent recording call whose
entry serializes successfully dereferences the nil recorder when locking its
mutex and panics (calls whose serialization fails log and return instead). -/
theorem initFailure_then_successful_marshal_panics :
    (InitRequestLogger false ⟨false, none⟩).1 = ⟨true, none⟩
      ∧ (∀ mkdirOk : Bool, InitRequestLogger mkdirOk ⟨true, none⟩ = (⟨true, none⟩, []))
      ∧ (∀ (mkdirOk : Bool) (line : String),
          (LogRequest mkdirOk (Except.ok line) ⟨true, none⟩).panicked = true) :=
  ⟨rfl, fun _ => rfl, fun _ _ => rfl⟩
